import Mathlib

/-
Verification of the PZ 13th Pandemic launcher core.

The definitions below are a shallow embedding of the launcher's
TypeScript frontend (src/src/app.tsx and the earlier application
variants kept under src/unnamed) together with spec-modelled versions
of the Rust backend commands (link_all, cleanup, check_optimizations,
apply_optimizations, auto_detect) whose implementation is not part of
the TypeScript sources.  Strings stand for filesystem paths; machine
state that React keeps in useState hooks is passed explicitly.
-/

namespace Launcher

/-- Steam application id of Project Zomboid, the constant APP_ID of app.tsx. -/
def APP_ID : String := "108600"

/-- Workshop package id, the constant WORKSHOP_ID of app.tsx. -/
def WORKSHOP_ID : String := "3487726294"

/-- Double-quote character, written by code point to keep literals readable. -/
def dquote : Char := Char.ofNat 34

/-- Single-quote character, written by code point. -/
def squote : Char := Char.ofNat 39

/-- Whitespace test matching the JavaScript regular expression backslash-s
class used by parseExtraArgs: ASCII spacing characters plus the Unicode
space separators, line/paragraph separators, NBSP, and BOM. -/
def isSpaceChar (c : Char) : Bool :=
  c.toNat = 32 || (9 ≤ c.toNat && c.toNat ≤ 13) || c.toNat = 0xa0 ||
  c.toNat = 0x1680 || (0x2000 ≤ c.toNat && c.toNat ≤ 0x200a) ||
  c.toNat = 0x2028 || c.toNat = 0x2029 || c.toNat = 0x202f ||
  c.toNat = 0x205f || c.toNat = 0x3000 || c.toNat = 0xfeff

/-- Loop state of parseExtraArgs: the accumulated argument list, the token
being built, whether the scanner is inside a quoted span, and which quote
character opened it (none when outside quotes, mirroring the empty-string
quoteChar of the TypeScript code). -/
structure ParseSt where
  args : List String
  current : String
  inQuotes : Bool
  quoteChar : Option Char
deriving DecidableEq, Repr

/-- One iteration of the character loop of parseExtraArgs (app.tsx lines
47-62): a quote character toggles quoting when outside quotes or when it
matches the opening quote; unquoted whitespace flushes the current token if
non-empty; every other character is appended to the current token. -/
def parseStep (s : ParseSt) (ch : Char) : ParseSt :=
  if (ch = dquote || ch = squote) && (!s.inQuotes || s.quoteChar = some ch) then
    if s.inQuotes then
      { s with inQuotes := false, quoteChar := none }
    else
      { s with inQuotes := true, quoteChar := some ch }
  else if !s.inQuotes && isSpaceChar ch then
    if s.current ≠ "" then
      { s with args := s.args ++ [s.current], current := "" }
    else
      s
  else
    { s with current := s.current.push ch }

/-- Initial loop state of parseExtraArgs. -/
def parseInit : ParseSt := ⟨[], "", false, none⟩

/-- Embedding of parseExtraArgs (app.tsx lines 42-67): scan the raw launch
options string and return the list of tokens, flushing a pending non-empty
token at the end. -/
def parseExtraArgs (raw : String) : List String :=
  let s := raw.data.foldl parseStep parseInit
  if s.current ≠ "" then s.args ++ [s.current] else s.args

/-- Play-session state of the frontend, the PlayState type of app.tsx. -/
inductive PlayState where
  | idle
  | launching
  | playing
deriving DecidableEq, Repr

/-- Launch request sent to the backend play command by handlePlay
(app.tsx lines 272-277). -/
structure PlayRequest where
  appid : String
  workshopId : String
  workshopPath : String
  extraArgs : Option (List String)
deriving DecidableEq, Repr

/-- Extra-args parameter computed by handlePlay: the parsed token list when
non-empty, null otherwise (app.tsx line 276). -/
def playExtraArgs (raw : String) : Option (List String) :=
  let parsedArgs := parseExtraArgs raw
  if parsedArgs.length > 0 then some parsedArgs else none

/-- Embedding of handlePlay (app.tsx lines 260-284).  Inputs are the
workshopPath and playState hook values, the raw launch-options field, and
whether the backend play invocation resolves (true) or rejects (false).
Returns the playState after the handler finishes together with the request
passed to the play command, none when no command was invoked.  An empty
workshopPath or a non-idle playState returns before any invocation; on
rejection the catch branch resets the state to idle. -/
def handlePlay (workshopPath : String) (playState : PlayState)
    (extraArgsRaw : String) (invokeOk : Bool) :
    PlayState × Option PlayRequest :=
  if workshopPath = "" then
    (playState, none)
  else if playState ≠ PlayState.idle then
    (playState, none)
  else
    let req : PlayRequest :=
      { appid := APP_ID, workshopId := WORKSHOP_ID,
        workshopPath := workshopPath, extraArgs := playExtraArgs extraArgsRaw }
    if invokeOk then (PlayState.launching, some req)
    else (PlayState.idle, some req)

/-- Cachedir shown and used by the frontend (app.tsx lines 143-148): empty
when no workshop path is known, otherwise the workshop path extended with
the fixed relative suffix mods, 13thPandemic, Zomboid. -/
def cachedirPath (workshopPath : String) : String :=
  if workshopPath = "" then ""
  else workshopPath ++ "\\mods\\13thPandemic\\Zomboid"

/-- Events driving the play-session state of app.tsx: a play request whose
backend invocation resolves or rejects, the pz-session-launched event with
its optional cachedir payload, and the pz-session-ended event with its
optional cachedir and found payload fields. -/
inductive SessionEvent where
  | playRequest (extraArgsRaw : String) (invokeOk : Bool)
  | launched (cachedir : Option String)
  | ended (cachedir : Option String) (found : Bool)
deriving DecidableEq, Repr

/-- Transition of the playState hook under one event: a play request runs
handlePlay; the pz-session-launched listener sets the state to playing
(app.tsx line 426) and the pz-session-ended listener sets it to idle
(app.tsx line 433), both unconditionally. -/
def sessionStep (workshopPath : String) (s : PlayState) :
    SessionEvent → PlayState
  | SessionEvent.playRequest raw ok => (handlePlay workshopPath s raw ok).1
  | SessionEvent.launched _ => PlayState.playing
  | SessionEvent.ended _ _ => PlayState.idle

/-- Play state reached from idle after a list of events. -/
def sessionRun (workshopPath : String) (evs : List SessionEvent) : PlayState :=
  evs.foldl (sessionStep workshopPath) PlayState.idle

/-- Launcher status of app.tsx: detecting, ready, or missing. -/
inductive LauncherStatus where
  | detecting
  | ready
  | missing
deriving DecidableEq, Repr

/-- Response of the auto_detect backend command as consumed by app.tsx. -/
structure DetectResponse where
  steam_root : String
  workshop_path : String
deriving DecidableEq, Repr

/-- Modelled from the spec: the PathResolver state that the Rust auto_detect
command reads, absent from the TypeScript sources.  The content-store root
and the packages found under its libraries, as pairs of package id and
package path. -/
structure SteamFs where
  contentRoot : String
  packages : List (String × String)
deriving DecidableEq, Repr

/-- Modelled from the spec: the Rust backend command auto_detect (PathResolver
detect), whose implementation is not under src/.  It locates the content
store root, searches the registered libraries for a subtree matching the
package id, and returns absent (empty) fields rather than raising when the
package is not installed.  Totality of this Lean function is the soft-failure
policy: no input raises. -/
def auto_detect (fs : SteamFs) (workshopId : String) : DetectResponse :=
  match fs.packages.find? (fun p => p.1 = workshopId) with
  | some p => { steam_root := fs.contentRoot, workshop_path := p.2 }
  | none => { steam_root := fs.contentRoot, workshop_path := "" }

/-- Hook state written by runDetection in app.tsx. -/
structure DetectionState where
  status : LauncherStatus
  workshopPath : String
  optimizationsApplied : Bool
deriving DecidableEq, Repr

/-- Embedding of runDetection (app.tsx lines 219-258).  The first argument is
the prior hook state, the second the outcome of the auto_detect invocation,
the third the outcome of the check_optimizations invocation made when a
workshop path was found.  On a rejected detect invocation only the status is
set to missing; on an empty workshop path the status becomes missing, the
stored path empty and the applied flag false; on a non-empty path the status
becomes ready and the applied flag follows the check result, left unchanged
if the check itself rejects. -/
def runDetection (st : DetectionState)
    (result : Except String DetectResponse)
    (checkResult : Except String Bool) : DetectionState :=
  match result with
  | Except.error _ => { st with status := LauncherStatus.missing }
  | Except.ok r =>
    if r.workshop_path ≠ "" then
      { status := LauncherStatus.ready,
        workshopPath := r.workshop_path,
        optimizationsApplied :=
          match checkResult with
          | Except.ok b => b
          | Except.error _ => st.optimizationsApplied }
    else
      { status := LauncherStatus.missing,
        workshopPath := "",
        optimizationsApplied := false }

/-- Result record of the apply_optimizations backend command, restricted to
the fields the claims are about. -/
structure ApplyResult where
  already : Bool
  copied : Nat
  replaced : Nat
deriving DecidableEq, Repr

/-- Destination filesystem of the optimization overlay: for each relative
path, the byte size of the file there, none when absent. -/
def DestFs : Type := String → Option Nat

/-- Modelled from the spec: the size-based check of the Rust
check_optimizations command (OptimizationApplier check), absent from src/.
The source tree is the list of overlay files with their byte sizes; the
check holds iff every source file has a same-size counterpart at the
destination. -/
def check_optimizations (src : List (String × Nat)) (dest : DestFs) : Bool :=
  src.all fun fs => dest fs.1 = some fs.2

/-- Copy of one overlay file into the destination tree. -/
def copyFile (dest : DestFs) (f : String × Nat) : DestFs :=
  fun n => if n = f.1 then some f.2 else dest n

/-- Modelled from the spec: the Rust apply_optimizations command
(OptimizationApplier apply), absent from src/.  If the size check already
holds it returns already true and leaves the filesystem untouched; otherwise
it copies every overlay file, counting destinations that did not exist as
copied and destinations of a different size as replaced. -/
def apply_optimizations (src : List (String × Nat)) (dest : DestFs) :
    ApplyResult × DestFs :=
  if check_optimizations src dest then
    ({ already := true, copied := 0, replaced := 0 }, dest)
  else
    ({ already := false,
       copied := (src.filter fun fs => dest fs.1 = none).length,
       replaced := (src.filter fun fs =>
         match dest fs.1 with
         | some sz => sz ≠ fs.2
         | none => False).length },
     src.foldl copyFile dest)

/-- Embedding of handleApplyOptimizations (app.tsx lines 286-315) restricted
to the hook state it writes.  Inputs are the workshopPath, the optimizing
and optimizationsApplied hook values, and the outcome of the
apply_optimizations invocation (some result when it resolves, none when it
rejects).  Output is the pair of the optimizationsApplied and optimizing
values after the handler: an empty path or an optimizing guard returns
early; a resolving invocation sets the applied flag true; the finally branch
always clears optimizing. -/
def handleApplyOptimizations (workshopPath : String)
    (optimizing : Bool) (optimizationsApplied : Bool)
    (outcome : Option ApplyResult) : Bool × Bool :=
  if workshopPath = "" then
    (optimizationsApplied, optimizing)
  else if optimizing then
    (optimizationsApplied, optimizing)
  else
    match outcome with
    | some _ => (true, false)
    | none => (optimizationsApplied, false)

/-- Disabled condition of the Apply Optimization button (app.tsx line 707). -/
def applyButtonDisabled (optimizationsApplied optimizing : Bool) : Bool :=
  optimizationsApplied || optimizing

end Launcher

namespace VariantApp

/-- Status of the earlier application variant kept at src/unnamed/part_001. -/
inductive Status where
  | not_found
  | ready
  | playing
deriving DecidableEq, Repr

/-- Status update of the pz-session-ended listener of the second component in
src/unnamed/part_001 (lines 317-329): the functional setStatus update maps
playing to ready and leaves every other status unchanged. -/
def endedStatusUpdate : Status → Status
  | Status.playing => Status.ready
  | s => s

/-- Full effect of the pz-session-ended listener on the status and busy
hooks: the status update above, and setBusy false. -/
def sessionEndedHandler (s : Status) (_busy : Bool) : Status × Bool :=
  (endedStatusUpdate s, false)

end VariantApp

namespace LinkManager

/-- Content of one top-level slot in the game's user-mods directory: a real
directory with opaque contents, or a filesystem link to a target path. -/
inductive Slot (α : Type) where
  | real (contents : α)
  | link (target : String)
deriving DecidableEq, Repr

/-- Modelled from the spec: the mutable filesystem state the Rust link_all
and cleanup commands (LinkManager) operate on, absent from src/.  For each
unit name, the slot at modsPath and the content, if any, parked at the
sibling backup location bearing the recognizable suffix. -/
structure ModsState (α : Type) where
  slots : String → Option (Slot α)
  backups : String → Option α

/-- Modelled from the spec: one unit of the link_all algorithm (LinkManager
linkAll), absent from src/.  An empty slot receives a link to the package's
copy; an existing link is left untouched; a real directory is moved to the
backup location and replaced by a link.  When the backup location is already
occupied the move cannot happen and the unit fails, leaving its slot
untouched, per the per-unit failure policy. -/
def linkUnit (pkg : String) (m : ModsState α) (u : String) : ModsState α :=
  match m.slots u with
  | none =>
    { m with slots := fun n =>
        if n = u then some (Slot.link (pkg ++ "\\mods\\" ++ u)) else m.slots n }
  | some (Slot.link _) => m
  | some (Slot.real d) =>
    match m.backups u with
    | none =>
      { slots := fun n =>
          if n = u then some (Slot.link (pkg ++ "\\mods\\" ++ u)) else m.slots n,
        backups := fun n =>
          if n = u then some d else m.backups n }
    | some _ => m

/-- Modelled from the spec: the Rust link_all command, absent from src/: for
each top-level unit under the package's mod subtree, ensure a link exists at
the corresponding modsPath slot. -/
def link_all (pkg : String) (units : List String) (m : ModsState α) :
    ModsState α :=
  units.foldl (linkUnit pkg) m

/-- Modelled from the spec: effect of the Rust cleanup command on one slot
and its backup, absent from src/.  A slot holding a link, recognized purely
by link-type inspection, is removed and, when a backup exists for that unit
name, the backup is moved back into place; any other slot, in particular a
real directory, is left untouched together with its backup. -/
def cleanupSlot (m : ModsState α) (n : String) :
    Option (Slot α) × Option α :=
  match m.slots n with
  | some (Slot.link _) =>
    match m.backups n with
    | some d => (some (Slot.real d), none)
    | none => (none, none)
  | s => (s, m.backups n)

/-- Modelled from the spec: the Rust cleanup command, absent from src/,
applied across every entry of the mods directory. -/
def cleanup (m : ModsState α) : ModsState α :=
  { slots := fun n => (cleanupSlot m n).1,
    backups := fun n => (cleanupSlot m n).2 }

end LinkManager

open Launcher LinkManager

/-- C2: a play request issued while the session state is not idle is
rejected: handlePlay invokes no play command and leaves the play state
unchanged, so at most one session can be in flight. -/
theorem play_rejected_when_not_idle (wp raw : String) (s : PlayState)
    (ok : Bool) (h : s ≠ PlayState.idle) :
    handlePlay wp s raw ok = (s, none) := by
  unfold handlePlay
  by_cases hwp : wp = "" <;> simp [hwp, h]

/-- Witness for C2 at a concrete non-idle state. -/
theorem play_rejected_when_not_idle_witness :
    handlePlay "wp" PlayState.launching "" true =
      (PlayState.launching, none) :=
  play_rejected_when_not_idle "wp" "" PlayState.launching true (by decide)

/-- C5: when the play invocation itself rejects, handlePlay reverts the play
state to idle immediately, the state it held before the request, even though
the command was issued; no launched or ended event is involved. -/
theorem play_failure_reverts_to_idle (wp raw : String) (h : wp ≠ "") :
    handlePlay wp PlayState.idle raw false =
      (PlayState.idle,
       some { appid := APP_ID, workshopId := WORKSHOP_ID,
              workshopPath := wp, extraArgs := playExtraArgs raw }) := by
  unfold handlePlay
  simp [h]

/-- Witness for C5 at a concrete workshop path. -/
theorem play_failure_reverts_to_idle_witness :
    handlePlay "wp" PlayState.idle "" false =
      (PlayState.idle,
       some { appid := APP_ID, workshopId := WORKSHOP_ID,
              workshopPath := "wp", extraArgs := playExtraArgs "" }) :=
  play_failure_reverts_to_idle "wp" "" (by decide)

/-- C7: for a detected non-empty workshop path an idle play request
transitions the state to launching and requests the store client with the
app id, workshop id, workshop path and optional extra arguments, while the
cachedir is the workshop path extended with the fixed relative suffix,
empty when the workshop path is empty. -/
theorem play_request_contents (wp raw : String) (h : wp ≠ "") :
    handlePlay wp PlayState.idle raw true =
      (PlayState.launching,
       some { appid := APP_ID, workshopId := WORKSHOP_ID,
              workshopPath := wp, extraArgs := playExtraArgs raw }) ∧
    cachedirPath wp = wp ++ "\\mods\\13thPandemic\\Zomboid" ∧
    cachedirPath "" = "" := by
  refine ⟨?_, ?_, rfl⟩
  · unfold handlePlay
    simp [h]
  · unfold cachedirPath
    simp [h]

/-- Witness for C7 at a concrete workshop path. -/
theorem play_request_contents_witness :
    handlePlay "wp" PlayState.idle "" true =
      (PlayState.launching,
       some { appid := APP_ID, workshopId := WORKSHOP_ID,
              workshopPath := "wp", extraArgs := playExtraArgs "" }) ∧
    cachedirPath "wp" = "wp" ++ "\\mods\\13thPandemic\\Zomboid" ∧
    cachedirPath "" = "" :=
  play_request_contents "wp" "" (by decide)

/-- C9: the extra-args parameter handed to the play command is null exactly
when parseExtraArgs yields no tokens, is never an empty array, and is what
handlePlay passes in its request. -/
theorem play_extra_args_param (wp raw : String) (ok : Bool) (h : wp ≠ "") :
    (handlePlay wp PlayState.idle raw ok).2 =
      some { appid := APP_ID, workshopId := WORKSHOP_ID,
             workshopPath := wp, extraArgs := playExtraArgs raw } ∧
    (playExtraArgs raw = none ↔ parseExtraArgs raw = []) ∧
    ∀ l, playExtraArgs raw = some l → l ≠ [] := by
  refine ⟨?_, ?_, ?_⟩
  · unfold handlePlay
    cases ok <;> simp [h]
  · unfold playExtraArgs
    cases hp : parseExtraArgs raw <;> simp [hp]
  · intro l hl
    unfold playExtraArgs at hl
    cases hp : parseExtraArgs raw with
    | nil => rw [hp] at hl; simp at hl
    | cons a t =>
      rw [hp] at hl
      simp at hl
      rw [← hl]
      simp

/-- Witness for C9 at a concrete workshop path and raw argument string. -/
theorem play_extra_args_param_witness :
    (handlePlay "wp" PlayState.idle " " true).2 =
      some { appid := APP_ID, workshopId := WORKSHOP_ID,
             workshopPath := "wp", extraArgs := playExtraArgs " " } ∧
    (playExtraArgs " " = none ↔ parseExtraArgs " " = []) ∧
    ∀ l, playExtraArgs " " = some l → l ≠ [] :=
  play_extra_args_param "wp" " " true (by decide)

/-- C10: the pz-session-ended listener of the variant application demotes a
playing status to ready, leaves any non-playing status unchanged, and always
clears the busy flag. -/
theorem ended_listener_frame (s : VariantApp.Status) (b bp : Bool)
    (h : s ≠ VariantApp.Status.playing) :
    VariantApp.sessionEndedHandler VariantApp.Status.playing bp =
      (VariantApp.Status.ready, false) ∧
    VariantApp.sessionEndedHandler s b = (s, false) := by
  refine ⟨rfl, ?_⟩
  cases s with
  | not_found => rfl
  | ready => rfl
  | playing => exact absurd rfl h

/-- Witness for C10 at the ready status. -/
theorem ended_listener_frame_witness :
    VariantApp.sessionEndedHandler VariantApp.Status.playing true =
      (VariantApp.Status.ready, false) ∧
    VariantApp.sessionEndedHandler VariantApp.Status.ready true =
      (VariantApp.Status.ready, false) :=
  ended_listener_frame VariantApp.Status.ready true true (by decide)

/-- C6: when the package is absent, the spec-modelled detect command returns
an empty workshop path rather than raising, and the caller's visible status
becomes missing; a rejected detect invocation likewise yields the missing
status rather than a crash. -/
theorem detection_soft_failure (fs : SteamFs) (wid e : String)
    (st : DetectionState) (chk : Except String Bool)
    (h : fs.packages.find? (fun p => p.1 = wid) = none) :
    (auto_detect fs wid).workshop_path = "" ∧
    (runDetection st (Except.ok (auto_detect fs wid)) chk).status =
      LauncherStatus.missing ∧
    (runDetection st (Except.error e) chk).status =
      LauncherStatus.missing := by
  have hwp : (auto_detect fs wid).workshop_path = "" := by
    unfold auto_detect
    rw [h]
  refine ⟨hwp, ?_, rfl⟩
  unfold runDetection
  simp [hwp]

/-- Witness for C6 on a store with no packages. -/
theorem detection_soft_failure_witness :
    (auto_detect ⟨"root", []⟩ "X").workshop_path = "" ∧
    (runDetection ⟨LauncherStatus.detecting, "", false⟩
        (Except.ok (auto_detect ⟨"root", []⟩ "X"))
        (Except.ok false)).status = LauncherStatus.missing ∧
    (runDetection ⟨LauncherStatus.detecting, "", false⟩
        (Except.error "boom") (Except.ok false)).status =
      LauncherStatus.missing :=
  detection_soft_failure ⟨"root", []⟩ "X" "boom"
    ⟨LauncherStatus.detecting, "", false⟩ (Except.ok false) rfl


/-- Helper for C4: the play-request transition never lands in the playing
state unless it started there; only the launched listener produces playing. -/
theorem sessionStep_eq_playing {wp : String} {s : PlayState}
    {e : SessionEvent} (h : sessionStep wp s e = PlayState.playing) :
    (∃ c, e = SessionEvent.launched c) ∨ s = PlayState.playing := by
  cases e with
  | playRequest raw ok =>
    right
    unfold sessionStep handlePlay at h
    by_cases hwp : wp = ""
    · simpa [hwp] using h
    · by_cases hs : s = PlayState.idle
      · subst hs
        cases ok <;> simp [hwp] at h
      · simpa [hwp, hs] using h
  | launched c => exact Or.inl ⟨c, rfl⟩
  | ended c f => simp [sessionStep] at h

/-- Helper for C4: a trace ending in the playing state contains a launched
event or started in the playing state. -/
theorem sessionTrace_playing (wp : String) (evs : List SessionEvent) :
    ∀ s : PlayState, evs.foldl (sessionStep wp) s = PlayState.playing →
      (∃ c, SessionEvent.launched c ∈ evs) ∨ s = PlayState.playing := by
  induction evs with
  | nil =>
    intro s h
    right
    simpa using h
  | cons e evs ih =>
    intro s h
    rw [List.foldl_cons] at h
    rcases ih (sessionStep wp s e) h with ⟨c, hc⟩ | hp
    · exact Or.inl ⟨c, List.mem_cons_of_mem _ hc⟩
    · rcases sessionStep_eq_playing hp with ⟨c, rfl⟩ | hs
      · exact Or.inl ⟨c, List.mem_cons_self _ _⟩
      · exact Or.inr hs

/-- C4: receipt of a pz-session-ended event always returns the play state to
idle; from launching, the state moves to playing exactly upon receipt of a
pz-session-launched event with its cachedir payload; and no event trace from
idle reaches playing without a launched event having occurred. -/
theorem session_lifecycle (wp : String) (c : Option String) (f : Bool)
    (s : PlayState) (e : SessionEvent) (evs : List SessionEvent) :
    sessionStep wp s (SessionEvent.ended c f) = PlayState.idle ∧
    (sessionStep wp PlayState.launching e = PlayState.playing ↔
      ∃ d, e = SessionEvent.launched d) ∧
    (sessionRun wp evs = PlayState.playing →
      ∃ d, SessionEvent.launched d ∈ evs) := by
  refine ⟨rfl, ⟨?_, ?_⟩, ?_⟩
  · intro h
    rcases sessionStep_eq_playing h with hd | hs
    · exact hd
    · cases hs
  · rintro ⟨d, rfl⟩
    rfl
  · intro h
    rcases sessionTrace_playing wp evs PlayState.idle h with hd | hs
    · exact hd
    · cases hs

/-- Witness for C4 on a concrete trace that reaches the playing state. -/
theorem session_lifecycle_witness :
    ∃ d, SessionEvent.launched d ∈
      [SessionEvent.playRequest "" true,
       SessionEvent.launched (some "cd")] :=
  (session_lifecycle "wp" (some "cd") true PlayState.idle
      (SessionEvent.launched (some "cd"))
      [SessionEvent.playRequest "" true,
       SessionEvent.launched (some "cd")]).2.2 (by decide)

/-- Helper for C8: one parser step either leaves the token list unchanged or
appends the current token, which is then non-empty. -/
theorem parseStep_args (s : ParseSt) (ch : Char) :
    (parseStep s ch).args = s.args ∨
    ((parseStep s ch).args = s.args ++ [s.current] ∧ s.current ≠ "") := by
  unfold parseStep
  repeat' split
  all_goals simp_all

/-- Helper for C8: along the character fold, every accumulated token stays
non-empty. -/
theorem foldl_parse_args_nonempty (l : List Char) :
    ∀ s : ParseSt, (∀ a ∈ s.args, a ≠ "") →
      ∀ a ∈ (l.foldl parseStep s).args, a ≠ "" := by
  induction l with
  | nil =>
    intro s h
    simpa using h
  | cons c l ih =>
    intro s h
    rw [List.foldl_cons]
    refine ih (parseStep s c) ?_
    rcases parseStep_args s c with he | ⟨he, hc⟩
    · intro a ha
      exact h a (he ▸ ha)
    · intro a ha
      rw [he] at ha
      rcases List.mem_append.mp ha with h1 | h2
      · exact h a h1
      · rw [List.mem_singleton.mp h2]
        exact hc

/-- Helper for C8: a whitespace character that is not a quote leaves the
initial parser state unchanged. -/
theorem parseStep_space_init (c : Char) (hc : isSpaceChar c = true) :
    parseStep parseInit c = parseInit := by
  have hd : ¬c = dquote := by
    rintro rfl
    simp [isSpaceChar, dquote] at hc
  have hs : ¬c = squote := by
    rintro rfl
    simp [isSpaceChar, squote] at hc
  unfold parseStep parseInit
  simp [hd, hs, hc]

/-- Helper for C8: a string of whitespace characters parses to no tokens. -/
theorem foldl_space_init (l : List Char)
    (h : ∀ c ∈ l, isSpaceChar c = true) :
    l.foldl parseStep parseInit = parseInit := by
  induction l with
  | nil => rfl
  | cons c l ih =>
    rw [List.foldl_cons, parseStep_space_init c (h c (List.mem_cons_self _ _))]
    exact ih fun d hd => h d (List.mem_cons_of_mem _ hd)

/-- C8: every token produced by parseExtraArgs is non-empty; an input of
unquoted whitespace only (in particular the empty string) yields no tokens;
unquoted whitespace separates tokens while a quoted span keeps its
whitespace inside one token and drops the delimiting quote characters, as
the concrete runs show. -/
theorem parseExtraArgs_tokens (raw ws : String)
    (hws : ∀ c ∈ ws.data, isSpaceChar c = true) :
    (∀ a ∈ parseExtraArgs raw, a ≠ "") ∧
    parseExtraArgs ws = [] ∧
    parseExtraArgs "a b" = ["a", "b"] ∧
    parseExtraArgs (String.mk
      [dquote, Char.ofNat 97, Char.ofNat 32, Char.ofNat 98, dquote,
       Char.ofNat 32, Char.ofNat 99]) = ["a b", "c"] := by
  refine ⟨?_, ?_, by decide, by decide⟩
  · intro a ha
    unfold parseExtraArgs at ha
    have hbase : ∀ b ∈ parseInit.args, b ≠ "" := by
      simp [parseInit]
    have hfold := foldl_parse_args_nonempty raw.data parseInit hbase
    by_cases hc : (raw.data.foldl parseStep parseInit).current ≠ ""
    · rw [if_pos hc] at ha
      rcases List.mem_append.mp ha with h1 | h2
      · exact hfold a h1
      · rw [List.mem_singleton.mp h2]
        exact hc
    · rw [if_neg hc] at ha
      exact hfold a ha
  · unfold parseExtraArgs
    rw [foldl_space_init ws.data hws]
    simp [parseInit]

/-- Witness for C8 on a concrete whitespace-only string. -/
theorem parseExtraArgs_tokens_witness :
    (∀ a ∈ parseExtraArgs "x -y", a ≠ "") ∧
    parseExtraArgs "  " = [] ∧
    parseExtraArgs "a b" = ["a", "b"] ∧
    parseExtraArgs (String.mk
      [dquote, Char.ofNat 97, Char.ofNat 32, Char.ofNat 98, dquote,
       Char.ofNat 32, Char.ofNat 99]) = ["a b", "c"] :=
  parseExtraArgs_tokens "x -y" "  " (by decide)

/-- Helper for C3: copying files whose relative paths avoid a given path
leaves that destination entry unchanged. -/
theorem foldl_copyFile_not_mem (src : List (String × Nat)) (dest : DestFs)
    (f : String) (h : f ∉ src.map Prod.fst) :
    (src.foldl copyFile dest) f = dest f := by
  induction src generalizing dest with
  | nil => rfl
  | cons g src ih =>
    simp only [List.map_cons, List.mem_cons, not_or] at h
    rw [List.foldl_cons, ih (copyFile dest g) h.2]
    unfold copyFile
    simp [h.1]

/-- Helper for C3: after the copy fold, a source file with a unique relative
path is present at the destination with its source size. -/
theorem foldl_copyFile_mem (src : List (String × Nat)) (dest : DestFs)
    (f : String) (sz : Nat) (hmem : (f, sz) ∈ src)
    (hnd : (src.map Prod.fst).Nodup) :
    (src.foldl copyFile dest) f = some sz := by
  induction src generalizing dest with
  | nil => cases hmem
  | cons g src ih =>
    rw [List.foldl_cons]
    simp only [List.map_cons, List.nodup_cons] at hnd
    rcases List.mem_cons.mp hmem with he | hm
    · have hf : f ∉ src.map Prod.fst := by
        rw [← he] at hnd
        exact hnd.1
      rw [foldl_copyFile_not_mem src (copyFile dest g) f hf]
      unfold copyFile
      rw [← he]
      simp
    · exact ih (copyFile dest g) hm hnd.2

/-- Helper for C3: the size check holds on the destination produced by
copying every overlay file. -/
theorem check_after_copy (src : List (String × Nat)) (dest : DestFs)
    (hnd : (src.map Prod.fst).Nodup) :
    check_optimizations src (src.foldl copyFile dest) = true := by
  unfold check_optimizations
  rw [List.all_eq_true]
  intro fs hfs
  have hm : (fs.1, fs.2) ∈ src := by
    rw [Prod.mk.eta]
    exact hfs
  simp [foldl_copyFile_mem src dest fs.1 fs.2 hm hnd]

/-- C3: when the size check already holds, apply_optimizations reports
already true with zero copies and an untouched filesystem; a second apply
after any apply short-circuits the same way on an unchanged filesystem; and
after a resolving apply invocation the caller sets the applied flag, which
disables the Apply Optimization button. -/
theorem apply_optimizations_idempotent (src : List (String × Nat))
    (dest : DestFs) (wp : String) (applied : Bool) (r : ApplyResult)
    (hnd : (src.map Prod.fst).Nodup) (hwp : wp ≠ "") :
    (check_optimizations src dest = true →
      apply_optimizations src dest =
        ({ already := true, copied := 0, replaced := 0 }, dest)) ∧
    apply_optimizations src (apply_optimizations src dest).2 =
      ({ already := true, copied := 0, replaced := 0 },
       (apply_optimizations src dest).2) ∧
    handleApplyOptimizations wp false applied (some r) = (true, false) ∧
    applyButtonDisabled true false = true := by
  refine ⟨?_, ?_, ?_, rfl⟩
  · intro hc
    unfold apply_optimizations
    simp [hc]
  · by_cases hc : check_optimizations src dest = true
    · unfold apply_optimizations
      simp [hc]
    · have h2 : check_optimizations src (src.foldl copyFile dest) = true :=
        check_after_copy src dest hnd
      unfold apply_optimizations
      simp [hc, h2]
  · unfold handleApplyOptimizations
    simp [hwp]

/-- Destination of the concrete overlay scenario: file a present with ten
bytes, file b absent. -/
def destScenario : DestFs := fun n => if n = "a" then some 10 else none

/-- Witness for C3 on the concrete overlay scenario of the spec. -/
theorem apply_optimizations_idempotent_witness :
    apply_optimizations [("a", 10), ("b", 20)]
        (apply_optimizations [("a", 10), ("b", 20)] destScenario).2 =
      ({ already := true, copied := 0, replaced := 0 },
       (apply_optimizations [("a", 10), ("b", 20)] destScenario).2) :=
  (apply_optimizations_idempotent [("a", 10), ("b", 20)] destScenario "wp"
      false ⟨false, 1, 0⟩ (by decide) (by decide)).2.1

/-- Invariant used for C1: the named slot either still holds the original
real directory, or holds a link while the original contents sit at the
backup location for that name. -/
def SafeAt (n : String) (d : α) (m : ModsState α) : Prop :=
  m.slots n = some (Slot.real d) ∨
  (∃ t, m.slots n = some (Slot.link t)) ∧ m.backups n = some d

/-- Helper for C1: linking one unit preserves the safety invariant of every
slot that initially held a real directory. -/
theorem linkUnit_safe {α : Type} (pkg n u : String) (d : α)
    (m : ModsState α) (h : SafeAt n d m) :
    SafeAt n d (linkUnit pkg m u) := by
  by_cases hnu : n = u
  · subst hnu
    unfold SafeAt at h ⊢
    rcases h with hr | ⟨⟨t, hl⟩, hb⟩
    · unfold linkUnit
      rw [hr]
      cases hbu : m.backups n with
      | none =>
        right
        refine ⟨⟨pkg ++ "\\mods\\" ++ n, ?_⟩, ?_⟩ <;> simp
      | some e =>
        left
        exact hr
    · unfold linkUnit
      rw [hl]
      exact Or.inr ⟨⟨t, hl⟩, hb⟩
  · unfold SafeAt at h ⊢
    have hs : (linkUnit pkg m u).slots n = m.slots n := by
      unfold linkUnit
      cases hsu : m.slots u with
      | none => simp [hnu]
      | some sl =>
        cases sl with
        | real e =>
          cases hbu : m.backups u with
          | none => simp [hnu]
          | some e2 => rfl
        | link t => rfl
    have hb : (linkUnit pkg m u).backups n = m.backups n := by
      unfold linkUnit
      cases hsu : m.slots u with
      | none => rfl
      | some sl =>
        cases sl with
        | real e =>
          cases hbu : m.backups u with
          | none => simp [hnu]
          | some e2 => rfl
        | link t => rfl
    rw [hs, hb]
    exact h

/-- Helper for C1: the whole link pass preserves the safety invariant. -/
theorem link_all_safe {α : Type} (pkg n : String) (d : α)
    (units : List String) (m : ModsState α) (h : SafeAt n d m) :
    SafeAt n d (link_all pkg units m) := by
  induction units generalizing m with
  | nil => exact h
  | cons u units ih => exact ih (linkUnit pkg m u) (linkUnit_safe pkg n u d m h)

/-- Helper for C1: cleanup turns a safe slot back into the original real
directory: a real slot is left untouched and a linked slot with a backup is
restored. -/
theorem cleanup_safe {α : Type} (n : String) (d : α) (m : ModsState α)
    (h : SafeAt n d m) : (cleanup m).slots n = some (Slot.real d) := by
  show (cleanupSlot m n).1 = some (Slot.real d)
  unfold cleanupSlot
  rcases h with hr | ⟨⟨t, hl⟩, hb⟩
  · rw [hr]
  · rw [hl, hb]

/-- C1: for every run of link_all followed by cleanup, every real (non-link)
directory present under the mods directory beforehand is present again with
unmodified contents afterwards, and cleanup alone never removes or modifies
a real, non-link directory. -/
theorem linkAll_cleanup_preserves_real {α : Type} (pkg n : String) (d : α)
    (units : List String) (m : ModsState α)
    (h : m.slots n = some (Slot.real d)) :
    (cleanup (link_all pkg units m)).slots n = some (Slot.real d) ∧
    (cleanup m).slots n = some (Slot.real d) := by
  constructor
  · exact cleanup_safe n d (link_all pkg units m)
      (link_all_safe pkg n d units m (Or.inl h))
  · exact cleanup_safe n d m (Or.inl h)

/-- Mods directory of the C1 witness: a single pre-existing real directory
named unitA with contents 7 and no backups. -/
def modsExample : ModsState Nat :=
  { slots := fun n => if n = "unitA" then some (Slot.real 7) else none,
    backups := fun _ => none }

/-- Witness for C1: after linking units unitA and unitB from a package and
cleaning up, the original real directory unitA is back with its contents. -/
theorem linkAll_cleanup_preserves_real_witness :
    (cleanup (link_all "pkg" ["unitA", "unitB"] modsExample)).slots "unitA" =
      some (Slot.real 7) ∧
    (cleanup modsExample).slots "unitA" = some (Slot.real 7) :=
  linkAll_cleanup_preserves_real "pkg" "unitA" 7 ["unitA", "unitB"]
    modsExample rfl
